import Mathlib

/-!
Verification of the ttStream dataflow-graph layer against its design
specification.

The repository's driver (`src/main.cpp`) is embedded directly.  The graph
library itself (`current::Kernel`, `current::Stream`, `current::Map` from
`stream.hpp` / `common.hpp`) is declared and used by the driver but its
source is not part of the checked tree, so those components are modelled
from the specification (sections 3, 4 and 7 of `spec.md`); each such
definition carries a doc comment starting with `Modelled from the spec:`.

Machine floating point only appears through the demo's constant vectors
(1.0, 2.0, 4.0, 0.0), all exactly representable in bfloat16, so stream
elements are modelled as rationals.
-/

/- ### Generic finite digraphs as edge lists -/

section Digraph

variable {α : Type} [DecidableEq α]

/-- Successors of `a` in the edge list `es`. -/
def succs (es : List (α × α)) (a : α) : List α :=
  es.filterMap (fun e => if e.1 = a then some e.2 else none)

/-- `reachesIn es n a b` decides whether there is a directed path of length
between `1` and `n` from `a` to `b` along edges of `es`. -/
def reachesIn (es : List (α × α)) : Nat → α → α → Bool
  | 0, _, _ => false
  | n + 1, a, b => (succs es a).any (fun c => decide (c = b) || reachesIn es n c b)

/-- The edge relation induced by the edge list `es`. -/
def edgeRel (es : List (α × α)) (a b : α) : Prop := (a, b) ∈ es

/-- Executable cycle test: some edge source reaches itself.  Fuel
`es.length` suffices because a shortest cycle uses pairwise distinct
edges. -/
def hasCycleB (es : List (α × α)) : Bool :=
  es.any (fun e => reachesIn es es.length e.1 e.1)

end Digraph

namespace current

/-- Element encodings (`tt::DataFormat` values used by the program). -/
inductive DataFormat
  | Float16_b
  | Float32
deriving DecidableEq, Repr

/-- Modelled from the spec: a `Port` of a `current::Kernel` (stream.hpp is
not under src/): a named, typed, directional attachment point; direction is
recorded by which list of its kernel it lives in. -/
structure Port where
  name : String
  format : DataFormat
deriving DecidableEq, Repr

/-- Modelled from the spec: a `current::Kernel` (stream.hpp is not under
src/): ordered input ports, ordered output ports and an opaque compute-body
string bound by the positional `inN`/`outN` convention. -/
structure Kernel where
  input_ports : List Port
  output_ports : List Port
  compute_body : String
deriving DecidableEq, Repr, Inhabited

/-- Modelled from the spec: stream elements; the demo's constants are exact
in bfloat16, so elements are modelled as rationals. -/
abbrev Elem := ℚ

/-- Modelled from the spec: a `current::Stream` (stream.hpp is not under
src/): a host-resident buffer of fixed element count with a declared
format, acting as a single anonymous connection endpoint. -/
structure Stream where
  data : List Elem
  count : Nat
  format : DataFormat
deriving DecidableEq, Repr

/-- Graph nodes, referenced by index into the owning `Map`'s node lists
(the source passes raw pointers; indices model pointer identity). -/
inductive NodeRef
  | kernel (i : Nat)
  | stream (i : Nat)
deriving DecidableEq, Repr

/-- An endpoint of a connection: a stream (anonymous endpoint) or a named
port of a kernel. -/
inductive Endpoint
  | stream (i : Nat)
  | port (k : Nat) (name : String)
deriving DecidableEq, Repr

/-- The node carrying an endpoint. -/
def Endpoint.node : Endpoint → NodeRef
  | .stream i => .stream i
  | .port k _ => .kernel k

/-- Modelled from the spec: a directed `Connection` between two endpoints
(stream.hpp is not under src/). -/
structure Connection where
  source : Endpoint
  dest : Endpoint
deriving DecidableEq, Repr

/-- Modelled from the spec: the `Map` lifecycle states Building →
Validated → Compiled → Executed (stream.hpp is not under src/). -/
inductive LifecycleState
  | Building
  | Validated
  | Compiled
  | Executed
deriving DecidableEq, Repr

/-- Error kinds of section 7 of the spec, together with
`InvalidLifecycleState` (the guard rejecting out-of-order lifecycle calls,
which the spec requires but does not name) and `UnwritableDestination`
(the only failure `export_dot` admits). -/
inductive GraphError
  | DuplicatePort
  | UnknownPort
  | FormatMismatch
  | DanglingInput
  | DanglingOutput
  | CyclicGraph
  | UnusedStream
  | DeviceExecutionFailure
  | InvalidLifecycleState
  | UnwritableDestination
deriving DecidableEq, Repr

/-- Modelled from the spec: the `current::Map` graph (stream.hpp is not
under src/): it owns the kernels, streams and connections, the lifecycle
state, and (once compiled) the core-to-tile assignment. -/
structure Map where
  kernels : List Kernel
  streams : List Stream
  connections : List Connection
  state : LifecycleState
  core_assignment : List Nat := []
deriving DecidableEq, Repr

/-- Modelled from the spec: `Kernel::add_input_port(name, format)` appends
to the ordered input-port list; fails with `DuplicatePort` if `name`
already exists in that direction (stream.hpp is not under src/). -/
def Kernel.add_input_port (k : Kernel) (name : String) (format : DataFormat) :
    Except GraphError Kernel :=
  if k.input_ports.any (fun p => p.name == name) then .error .DuplicatePort
  else .ok { k with input_ports := k.input_ports ++ [⟨name, format⟩] }

/-- Modelled from the spec: `Kernel::add_output_port(name, format)`
(stream.hpp is not under src/). -/
def Kernel.add_output_port (k : Kernel) (name : String) (format : DataFormat) :
    Except GraphError Kernel :=
  if k.output_ports.any (fun p => p.name == name) then .error .DuplicatePort
  else .ok { k with output_ports := k.output_ports ++ [⟨name, format⟩] }

/-- Modelled from the spec: `Kernel::set_compute_kernel(body)` stores the
opaque body verbatim (stream.hpp is not under src/). -/
def Kernel.set_compute_kernel (k : Kernel) (body : String) : Kernel :=
  { k with compute_body := body }

/-- Modelled from the spec: the stream-to-kernel overload
`Map::add_connection(stream, kernel, port_name)`: registers an edge into
the named input port; fails with `UnknownPort` when `port_name` names no
input port of the target kernel (or an endpoint index is dangling) and
with `FormatMismatch` when the endpoint formats differ (stream.hpp is not
under src/). -/
def Map.add_connection_in (m : Map) (s : Nat) (k : Nat) (port_name : String) :
    Except GraphError Map :=
  match m.kernels.get? k with
  | none => .error .UnknownPort
  | some kern =>
    match kern.input_ports.find? (fun p => p.name == port_name) with
    | none => .error .UnknownPort
    | some p =>
      match m.streams.get? s with
      | none => .error .UnknownPort
      | some st =>
        if st.format = p.format then
          .ok { m with connections := m.connections ++ [⟨.stream s, .port k port_name⟩] }
        else .error .FormatMismatch

/-- Modelled from the spec: the kernel-to-stream overload
`Map::add_connection(kernel, port_name, stream)`: registers an edge out of
the named output port, with the same `UnknownPort` / `FormatMismatch`
failures (stream.hpp is not under src/). -/
def Map.add_connection_out (m : Map) (k : Nat) (port_name : String) (s : Nat) :
    Except GraphError Map :=
  match m.kernels.get? k with
  | none => .error .UnknownPort
  | some kern =>
    match kern.output_ports.find? (fun p => p.name == port_name) with
    | none => .error .UnknownPort
    | some p =>
      match m.streams.get? s with
      | none => .error .UnknownPort
      | some st =>
        if st.format = p.format then
          .ok { m with connections := m.connections ++ [⟨.port k port_name, .stream s⟩] }
        else .error .FormatMismatch

/-- Number of registered connections into input port `name` of kernel `k`. -/
def incoming_count (m : Map) (k : Nat) (name : String) : Nat :=
  m.connections.countP (fun c => decide (c.dest = Endpoint.port k name))

/-- Number of registered connections out of output port `name` of kernel `k`. -/
def outgoing_count (m : Map) (k : Nat) (name : String) : Nat :=
  m.connections.countP (fun c => decide (c.source = Endpoint.port k name))

/-- Number of registered connections touching stream `s` (either side). -/
def stream_conn_count (m : Map) (s : Nat) : Nat :=
  m.connections.countP
    (fun c => decide (c.source = Endpoint.stream s) || decide (c.dest = Endpoint.stream s))

/-- Some declared input port lacks exactly one incoming edge. -/
def dangling_input (m : Map) : Bool :=
  (List.range m.kernels.length).any (fun k =>
    ((m.kernels.getD k default).input_ports).any
      (fun p => decide (incoming_count m k p.name ≠ 1)))

/-- Some declared output port lacks exactly one outgoing edge. -/
def dangling_output (m : Map) : Bool :=
  (List.range m.kernels.length).any (fun k =>
    ((m.kernels.getD k default).output_ports).any
      (fun p => decide (outgoing_count m k p.name ≠ 1)))

/-- The node-level edge list of the graph. -/
def edge_list (m : Map) : List (NodeRef × NodeRef) :=
  m.connections.map (fun c => (c.source.node, c.dest.node))

/-- Executable cycle test on the node-level edge list. -/
def Map.cyclic (m : Map) : Bool := hasCycleB (edge_list m)

/-- Some stream is not connected exactly once. -/
def unused_stream (m : Map) : Bool :=
  (List.range m.streams.length).any (fun s => decide (stream_conn_count m s ≠ 1))

/-- Every declared input port of every kernel has exactly one incoming edge. -/
def InputsOk (m : Map) : Prop :=
  ∀ k, k < m.kernels.length →
    ∀ p ∈ (m.kernels.getD k default).input_ports, incoming_count m k p.name = 1

/-- Every declared output port of every kernel has exactly one outgoing edge. -/
def OutputsOk (m : Map) : Prop :=
  ∀ k, k < m.kernels.length →
    ∀ p ∈ (m.kernels.getD k default).output_ports, outgoing_count m k p.name = 1

/-- The declarative cycle predicate: some node reaches itself through a
nonempty chain of connections. -/
def Map.HasCycle (m : Map) : Prop :=
  ∃ a, Relation.TransGen (edgeRel (edge_list m)) a a

/-- Every stream is connected exactly once. -/
def StreamsOk (m : Map) : Prop :=
  ∀ s, s < m.streams.length → stream_conn_count m s = 1

/-- Modelled from the spec: `Map::check_connections()` (stream.hpp is not
under src/).  Whole-graph validation refusing to proceed past the first
detected structural error, in the order of section 4.3 of the spec:
`DanglingInput`, `DanglingOutput`, `CyclicGraph`, `UnusedStream`.  On
success it records validation in the lifecycle state and changes nothing
else; transitions are one-way, so a later state is never regressed. -/
def Map.check_connections (m : Map) : Except GraphError Map :=
  if dangling_input m then .error .DanglingInput
  else if dangling_output m then .error .DanglingOutput
  else if m.cyclic then .error .CyclicGraph
  else if unused_stream m then .error .UnusedStream
  else .ok { m with state := if m.state = .Building then .Validated else m.state }

/-- Modelled from the spec and from the commented-out partitioning code at
src/main.cpp:131-135: one entry per core, each core gets
`n_tiles / num_cores` tiles and the last core additionally receives the
remainder `n_tiles % num_cores` (the work-partitioning step of the graph
compiler in stream.hpp, which is not under src/). -/
def tiles_per_core_vec (n_tiles num_cores : Nat) : List Nat :=
  let base := List.replicate num_cores (n_tiles / num_cores)
  if n_tiles % num_cores ≠ 0 then
    base.set (num_cores - 1) (n_tiles / num_cores + n_tiles % num_cores)
  else base

/-- Modelled from the spec: `Map::generate_device_kernels()` (stream.hpp
is not under src/).  It requires the graph to be validated — any other
lifecycle state is refused — and deterministically records the core-to-tile
assignment for the given tile and core counts, moving the map to
`Compiled`. -/
def Map.generate_device_kernels (m : Map) (n_tiles num_cores : Nat) :
    Except GraphError Map :=
  if m.state = .Validated then
    .ok { m with state := .Compiled, core_assignment := tiles_per_core_vec n_tiles num_cores }
  else .error .InvalidLifecycleState

/-- Whitespace recognized when scanning a compute body. -/
def isWs (c : Char) : Bool := c = ' ' || c = '\n' || c = '\t' || c = '\r'

/-- Expect the literal prefix `pre`; return the rest of the input. -/
def expect (pre : List Char) (l : List Char) : Option (List Char) :=
  if l.take pre.length = pre then some (l.drop pre.length) else none

/-- Decimal value of a digit string. -/
def digitsToNat (ds : List Char) : Nat :=
  ds.foldl (fun acc c => acc * 10 + (c.toNat - 48)) 0

/-- Modelled from the spec: the code generator's binding of the positional
convention — a compute body of the form `outN = inM;` (with arbitrary
surrounding whitespace) assigns the `M`-th declared input to the `N`-th
declared output.  Bodies outside this shape are not understood by the
model and make execution fail. -/
def parseAssign (body : String) : Option (Nat × Nat) :=
  let l0 := body.toList.dropWhile isWs
  match expect ("out".toList) l0 with
  | none => none
  | some l1 =>
    let ds1 := l1.takeWhile Char.isDigit
    let l2 := (l1.dropWhile Char.isDigit).dropWhile isWs
    if ds1 = [] then none else
    match expect ("=".toList) l2 with
    | none => none
    | some l3 =>
      let l4 := l3.dropWhile isWs
      match expect ("in".toList) l4 with
      | none => none
      | some l5 =>
        let ds2 := l5.takeWhile Char.isDigit
        let l6 := (l5.dropWhile Char.isDigit).dropWhile isWs
        if ds2 = [] then none else
        match expect (";".toList) l6 with
        | none => none
        | some l7 =>
          if l7.dropWhile isWs = [] then some (digitsToNat ds1, digitsToNat ds2)
          else none

/-- Modelled from the spec: run one kernel of a compiled single-stage graph
(stream.hpp is not under src/): gather the data of the stream feeding each
input port in declaration order, evaluate the compute body under the
positional convention, and name the sink stream receiving the produced
data together with that data. -/
def Map.run_kernel (m : Map) (k : Nat) (kern : Kernel) : Option (Nat × List Elem) := do
  let inputs ← kern.input_ports.mapM (fun p =>
    match m.connections.find? (fun c => decide (c.dest = Endpoint.port k p.name)) with
    | some c =>
      match c.source with
      | .stream s => (m.streams.get? s).map Stream.data
      | _ => none
    | none => none)
  let pr ← parseAssign kern.compute_body
  let inData ← inputs.get? pr.2
  let outPort ← kern.output_ports.get? pr.1
  let c ← m.connections.find? (fun c => decide (c.source = Endpoint.port k outPort.name))
  match c.dest with
  | .stream s => some (s, inData)
  | _ => none

/-- Write each kernel's produced data into its sink stream. -/
def apply_results (streams : List Stream) : List (Nat × List Elem) → Option (List Stream)
  | [] => some streams
  | (s, data) :: rest =>
    match streams.get? s with
    | some st => apply_results (streams.set s { st with data := data }) rest
    | none => none

/-- Run every kernel of the graph and collect the updated stream buffers. -/
def Map.exec_all (m : Map) : Option (List Stream) := do
  let results ← m.kernels.enum.mapM (fun ki => m.run_kernel ki.1 ki.2)
  apply_results m.streams results

/-- Modelled from the spec: `Map::execute()` (stream.hpp is not under
src/).  It requires the graph to be compiled — any other lifecycle state is
refused — and either fully populates every sink stream and moves to
`Executed`, or fails with `DeviceExecutionFailure`. -/
def Map.execute (m : Map) : Except GraphError Map :=
  if m.state = .Compiled then
    match m.exec_all with
    | some streams2 => .ok { m with streams := streams2, state := .Executed }
    | none => .error .DeviceExecutionFailure
  else .error .InvalidLifecycleState

/-- Printable name of an endpoint in the diagnostic output. -/
def Endpoint.dotName : Endpoint → String
  | .stream i => "stream" ++ toString i
  | .port k n => "kernel" ++ toString k ++ ":" ++ n

/-- Modelled from the spec: the serialized directed-graph text written by
`export_dot` (stream.hpp is not under src/); it lists the current nodes and
edges and reads nothing but them. -/
def render_dot (m : Map) : String :=
  let nodeLines :=
    (List.range m.kernels.length).map (fun k => "kernel" ++ toString k) ++
      (List.range m.streams.length).map (fun s => "stream" ++ toString s)
  let edgeLines := m.connections.map (fun c => c.source.dotName ++ " -> " ++ c.dest.dotName)
  String.intercalate "\n" ("digraph G" :: (nodeLines ++ edgeLines))

/-- Modelled from the spec: `Map::export_dot(path)` (stream.hpp is not
under src/).  Callable in any lifecycle state; the destination's
writability is the only failure source and is passed explicitly; the map is
returned unchanged alongside the serialized text. -/
def Map.export_dot (m : Map) (dest_writable : Bool) :
    Except GraphError (String × Map) :=
  if dest_writable then .ok (render_dot m, m) else .error .UnwritableDestination

end current

/- ### The surrounding demo driver (src/main.cpp) -/

/-- Modelled from the spec: elements per 32×32 tile (`TILE_SIZE` comes from
common.hpp, which is not under src/; src/main.cpp:35-36 documents a tile as
32×32 elements).  The C9 theorem is proved for every positive tile size,
so nothing depends on this particular value. -/
def TILE_SIZE : Nat := 1024

/-- The tile-count computation of src/main.cpp:128:
`n_tiles = std::ceil(count / TILE_SIZE)` — C++ evaluates the unsigned
integer quotient first and `std::ceil` is applied to the already-truncated
value. -/
def n_tiles_calc (count ts : Nat) : Nat :=
  Nat.ceil (((count / ts : Nat) : ℚ))

/-- Model of the external tt-metal helper
`create_constant_vector_of_bfloat16(num_bytes, value)`: a constant vector
holding `num_bytes / 2` bfloat16 elements all equal to `value` (an external
collaborator per section 1 of the spec, consumed through this narrow
contract). -/
def create_constant_vector_of_bfloat16 (num_bytes : Nat) (value : current.Elem) :
    List current.Elem :=
  List.replicate (num_bytes / 2) value

/-- Abstract model of constructing `std::mt19937 rng(seed)`
(src/main.cpp:145); the generator state is opaque and never consulted by
the demo. -/
def mt19937 (seed : Nat) : Nat := seed

/-- `next_arg` of src/main.cpp:70-76: returns the following argument, or
`none` when `i + 1 >= argc`, which in the program prints an error and
terminates with exit status 1 before any out-of-bounds read. -/
def next_arg (i argc : Nat) (argv : List String) : Option String :=
  if i + 1 ≥ argc then none
  else some (argv.getD (i + 1) "")

/-- Model of `std::stoi` restricted to the demo's use: parse an integer,
defaulting to 0 (the exception path of `std::stoi` is outside the embedded
error branch). -/
def stoi (s : String) : Int := s.toInt?.getD 0

/-- Result of the demo's argument parsing: either the parsed options or
process termination with the given exit status. -/
inductive ArgResult
  | ok (device_id : Int) (seed : Int)
  | exited (code : Nat)
deriving DecidableEq, Repr

/-- The argument loop of src/main.cpp:93-109.  `next_arg` both reads
`argv[i+1]` and advances the index, and the `for` increment advances it
again, so a consumed value moves the loop from `i` to `i + 2`.  `--help`
exits with status 0, and an unknown argument prints and then calls
`help`, which also exits with status 0. -/
def parse_args_loop (argv : List String) (i : Nat) (device_id seed : Int) : ArgResult :=
  if h : i < argv.length then
    let arg := argv.get ⟨i, h⟩
    if arg = "--device" ∨ arg = "-d" then
      match next_arg i argv.length argv with
      | none => .exited 1
      | some v => parse_args_loop argv (i + 2) (stoi v) seed
    else if arg = "--seed" ∨ arg = "-s" then
      match next_arg i argv.length argv with
      | none => .exited 1
      | some v => parse_args_loop argv (i + 2) device_id (stoi v)
    else if arg = "--help" ∨ arg = "-h" then .exited 0
    else .exited 0
  else .ok device_id seed
termination_by argv.length - i

/-- Entry point of the argument parsing: `argv.head?` is the program name
and scanning starts at index 1; `seed0` is the `std::random_device` draw
that initializes `seed`. -/
def parse_args (argv : List String) (seed0 : Int) : ArgResult :=
  parse_args_loop argv 1 0 seed0

namespace demo

open current

/-- `count` of src/main.cpp:127. -/
def count : Nat := 1024 * 2

/-- `n_tiles` of src/main.cpp:128. -/
def n_tiles : Nat := n_tiles_calc count TILE_SIZE

/-- The bundle of host vectors built at src/main.cpp:145-149. -/
structure StreamData where
  generator0_data : List Elem
  generator1_data : List Elem
  generator2_data : List Elem
  output_data : List Elem
deriving DecidableEq, Repr

/-- src/main.cpp:145-149: the seeded generator is constructed and the four
constant host vectors are built without ever consulting it. -/
def demoStreamData (seed : Nat) : StreamData :=
  let _rng := mt19937 seed
  { generator0_data := create_constant_vector_of_bfloat16 (TILE_SIZE * n_tiles * 2) 1
    generator1_data := create_constant_vector_of_bfloat16 (TILE_SIZE * n_tiles * 2) 2
    generator2_data := create_constant_vector_of_bfloat16 (TILE_SIZE * n_tiles * 2) 4
    output_data := create_constant_vector_of_bfloat16 (TILE_SIZE * n_tiles * 2) 0 }

/-- `generator0_data` of src/main.cpp:146. -/
def generator0_data : List Elem := (demoStreamData 0).generator0_data

/-- `generator1_data` of src/main.cpp:147. -/
def generator1_data : List Elem := (demoStreamData 0).generator1_data

/-- `generator2_data` of src/main.cpp:148. -/
def generator2_data : List Elem := (demoStreamData 0).generator2_data

/-- `output_data` of src/main.cpp:149. -/
def output_data : List Elem := (demoStreamData 0).output_data

/-- The `saxpy_kernel` of src/main.cpp:160-171 after its three
`add_input_port` calls, one `add_output_port` call and
`set_compute_kernel`. -/
def saxpy_kernel : Kernel :=
  { input_ports :=
      [⟨"in0", .Float16_b⟩, ⟨"in1", .Float16_b⟩, ⟨"in2", .Float16_b⟩]
    output_ports := [⟨"out0", .Float16_b⟩]
    compute_body := "\n        out0 = in2;\n    " }

/-- The same kernel built through the port-declaration API, as the driver
does. -/
def saxpy_kernel_built : Except GraphError Kernel := do
  let k : Kernel := { input_ports := [], output_ports := [], compute_body := "" }
  let k ← k.add_input_port "in0" .Float16_b
  let k ← k.add_input_port "in1" .Float16_b
  let k ← k.add_input_port "in2" .Float16_b
  let k ← k.add_output_port "out0" .Float16_b
  pure (k.set_compute_kernel "\n        out0 = in2;\n    ")

/-- `source0` of src/main.cpp:174. -/
def source0 : Stream := ⟨generator0_data, count, .Float16_b⟩

/-- `source1` of src/main.cpp:175. -/
def source1 : Stream := ⟨generator1_data, count, .Float16_b⟩

/-- `source2` of src/main.cpp:176. -/
def source2 : Stream := ⟨generator2_data, count, .Float16_b⟩

/-- `sink` of src/main.cpp:177. -/
def sink : Stream := ⟨output_data, count, .Float16_b⟩

/-- The map as constructed at src/main.cpp:180, before any connection. -/
def map0 : Map :=
  { kernels := [saxpy_kernel]
    streams := [source0, source1, source2, sink]
    connections := []
    state := .Building }

/-- The demo graph after the four `add_connection` calls of
src/main.cpp:181-184. -/
def demoMap : Map :=
  { map0 with
    connections :=
      [⟨.stream 0, .port 0 "in0"⟩, ⟨.stream 1, .port 0 "in1"⟩,
        ⟨.stream 2, .port 0 "in2"⟩, ⟨.port 0 "out0", .stream 3⟩] }

/-- The connection sequence of src/main.cpp:181-184 run through the API. -/
def demoMap_built : Except GraphError Map := do
  let m ← map0.add_connection_in 0 0 "in0"
  let m ← m.add_connection_in 1 0 "in1"
  let m ← m.add_connection_in 2 0 "in2"
  m.add_connection_out 0 "out0" 3

/-- The demo graph after a successful `check_connections`. -/
def demoMapValidated : Map := { demoMap with state := .Validated }

/-- The demo graph after `generate_device_kernels` with the demo's one
core. -/
def demoMapCompiled : Map :=
  { demoMapValidated with
    state := .Compiled
    core_assignment := tiles_per_core_vec n_tiles 1 }

/-- The demo graph after execution: the sink stream holds the third
source's data. -/
def demoMapExecuted : Map :=
  { demoMapCompiled with
    streams := [source0, source1, source2, { sink with data := generator2_data }]
    state := .Executed }

end demo


/- ### Concrete fixtures used by witnesses and counterexamples -/

/-- A graph whose single stream is unconnected while every port condition
holds vacuously: no kernels, no connections. -/
def cexMap : current.Map :=
  { kernels := []
    streams := [⟨[], 0, .Float16_b⟩]
    connections := []
    state := .Building }

/-- A one-port kernel used to witness the connection-registration errors. -/
def wKernel : current.Kernel :=
  { input_ports := [⟨"in0", .Float16_b⟩]
    output_ports := [⟨"out0", .Float16_b⟩]
    compute_body := "" }

/-- A stream whose format disagrees with `wKernel`'s ports. -/
def wStreamF32 : current.Stream := ⟨[], 0, .Float32⟩

/-- The fixture graph for the connection-registration error witnesses. -/
def wMap : current.Map :=
  { kernels := [wKernel]
    streams := [wStreamF32]
    connections := []
    state := .Building }

/- ### Reachability and cycle-detection lemmas -/

section DigraphLemmas

variable {α : Type}

theorem mem_succs [DecidableEq α] {es : List (α × α)} {a b : α} :
    b ∈ succs es a ↔ (a, b) ∈ es := by
  constructor
  · intro h
    simp only [succs, List.mem_filterMap] at h
    obtain ⟨e, he, hc⟩ := h
    by_cases h1 : e.1 = a
    · rw [if_pos h1] at hc
      have he2 : e = (a, b) := by
        cases e
        simp only [Option.some.injEq] at hc
        simp_all
      rwa [he2] at he
    · rw [if_neg h1] at hc
      cases hc
  · intro h
    simp only [succs, List.mem_filterMap]
    exact ⟨(a, b), h, by simp⟩

theorem reachesIn_succ_iff [DecidableEq α] {es : List (α × α)} {n : Nat} {a b : α} :
    reachesIn es (n + 1) a b = true ↔
      ∃ c ∈ succs es a, c = b ∨ reachesIn es n c b = true := by
  rw [show reachesIn es (n + 1) a b
      = (succs es a).any (fun c => decide (c = b) || reachesIn es n c b) from rfl]
  simp only [List.any_eq_true, Bool.or_eq_true, decide_eq_true_eq]

theorem reachesIn_sound [DecidableEq α] {es : List (α × α)} :
    ∀ {n : Nat} {a b : α}, reachesIn es n a b = true →
      Relation.TransGen (edgeRel es) a b := by
  intro n
  induction n with
  | zero => intro a b h; simp [reachesIn] at h
  | succ n ih =>
    intro a b h
    rw [reachesIn_succ_iff] at h
    obtain ⟨c, hc, hor⟩ := h
    have hedge : edgeRel es a c := mem_succs.mp hc
    rcases hor with rfl | h2
    · exact Relation.TransGen.single hedge
    · exact Relation.TransGen.head hedge (ih h2)

theorem reachesIn_mono [DecidableEq α] {es : List (α × α)} :
    ∀ {n m : Nat} {a b : α}, n ≤ m → reachesIn es n a b = true →
      reachesIn es m a b = true := by
  intro n
  induction n with
  | zero => intro m a b _ h; simp [reachesIn] at h
  | succ n ih =>
    intro m a b hnm h
    obtain ⟨m', rfl⟩ : ∃ m', m = m' + 1 := ⟨m - 1, by omega⟩
    rw [reachesIn_succ_iff] at h ⊢
    obtain ⟨c, hc, hor⟩ := h
    refine ⟨c, hc, ?_⟩
    rcases hor with rfl | h2
    · exact Or.inl rfl
    · exact Or.inr (ih (by omega) h2)

theorem chain_reachesIn [DecidableEq α] {es : List (α × α)} :
    ∀ {l : List α} {a b : α}, List.Chain (edgeRel es) a l → ∀ (hne : l ≠ []),
      l.getLast hne = b → reachesIn es l.length a b = true := by
  intro l
  induction l with
  | nil => intro a b _ hne _; exact absurd rfl hne
  | cons c t ih =>
    intro a b hch hne hlast
    cases hch with
    | cons hac hct =>
      cases t with
      | nil =>
        have hcb : c = b := hlast
        subst hcb
        rw [show ([c] : List α).length = 0 + 1 from rfl, reachesIn_succ_iff]
        exact ⟨c, mem_succs.mpr hac, Or.inl rfl⟩
      | cons d t' =>
        have hlast' : (d :: t').getLast (List.cons_ne_nil d t') = b := by
          rw [← List.getLast_cons (List.cons_ne_nil d t')]
          exact hlast
        have ihr := ih hct (List.cons_ne_nil d t') hlast'
        rw [show (c :: d :: t').length = (d :: t').length + 1 from rfl,
          reachesIn_succ_iff]
        exact ⟨c, mem_succs.mpr hac, Or.inr ihr⟩

theorem exists_dup_split {l : List α} (h : ¬ l.Nodup) :
    ∃ p v mm s, l = p ++ v :: mm ++ v :: s := by
  induction l with
  | nil => simp at h
  | cons a t ih =>
    by_cases ha : a ∈ t
    · obtain ⟨mm, s, rfl⟩ := List.append_of_mem ha
      exact ⟨[], a, mm, s, rfl⟩
    · have ht : ¬ t.Nodup := by
        intro hn
        exact h (List.nodup_cons.mpr ⟨ha, hn⟩)
      obtain ⟨p, v, mm, s, rfl⟩ := ih ht
      exact ⟨a :: p, v, mm, s, rfl⟩

theorem map_fst_zip_cons : ∀ (a : α) (l : List α),
    ((a :: l).zip l).map Prod.fst = (a :: l).dropLast
  | _, [] => rfl
  | a, b :: t => by
    have ih := map_fst_zip_cons b t
    simp only [List.zip_cons_cons, List.map_cons, ih, List.dropLast_cons₂]

theorem chain_zip_mem {es : List (α × α)} :
    ∀ {l : List α} {a : α}, List.Chain (edgeRel es) a l →
      ∀ pr ∈ (a :: l).zip l, pr ∈ es := by
  intro l
  induction l with
  | nil => intro a _ pr hpr; simp at hpr
  | cons c t ih =>
    intro a hch pr hpr
    cases hch with
    | cons hac hct =>
      rw [List.zip_cons_cons] at hpr
      rcases List.mem_cons.mp hpr with rfl | h2
      · exact hac
      · exact ih hct pr h2

theorem getLast_append_singleton :
    ∀ (l : List α) (a : α) (h : l ++ [a] ≠ []), (l ++ [a]).getLast h = a := by
  intro l a
  induction l with
  | nil => intro h; rfl
  | cons b t ih =>
    intro h
    have h2 : (t ++ [a]) ≠ [] := by simp
    exact (List.getLast_cons h2).trans (ih h2)

theorem cycle_shorten {es : List (α × α)} :
    ∀ (n : Nat) (l : List α) (a : α), l.length ≤ n →
      List.Chain (edgeRel es) a l → ∀ (hne : l ≠ []), l.getLast hne = a →
      ∃ (l' : List α) (hne' : l' ≠ []), List.Chain (edgeRel es) a l' ∧
        l'.getLast hne' = a ∧ l'.length ≤ es.length := by
  intro n
  induction n with
  | zero =>
    intro l a hl _ hne _
    cases l with
    | nil => exact absurd rfl hne
    | cons c t => simp at hl
  | succ n ih =>
    intro l a hl hchain hne hlast
    by_cases hsmall : l.length ≤ es.length
    · exact ⟨l, hne, hchain, hlast, hsmall⟩
    push_neg at hsmall
    by_cases hnd : ((a :: l).dropLast).Nodup
    · exfalso
      have hmapfst := map_fst_zip_cons a l
      have hndz : ((a :: l).zip l).Nodup := by
        refine List.Nodup.of_map Prod.fst ?_
        rw [hmapfst]
        exact hnd
      have hsub : ((a :: l).zip l) ⊆ es := fun pr hpr => chain_zip_mem hchain pr hpr
      have hlen : ((a :: l).zip l).length ≤ es.length :=
        (hndz.subperm hsub).length_le
      rw [List.length_zip, List.length_cons, min_eq_right (Nat.le_succ _)] at hlen
      omega
    · obtain ⟨p, v, mm, s, hsplit⟩ := exists_dup_split hnd
      have hga : (a :: l).getLast (List.cons_ne_nil a l) = a := by
        rw [List.getLast_cons hne]
        exact hlast
      have hful : a :: l = (p ++ v :: mm) ++ (v :: (s ++ [a])) := by
        conv_lhs => rw [← List.dropLast_append_getLast (List.cons_ne_nil a l)]
        rw [hsplit, hga]
        simp
      have hchain2 : List.Chain' (edgeRel es) ((p ++ v :: mm) ++ (v :: (s ++ [a]))) := by
        have hc' : List.Chain' (edgeRel es) (a :: l) := hchain
        rwa [hful] at hc'
      rw [List.chain'_append] at hchain2
      obtain ⟨hcPM, hcVS, _⟩ := hchain2
      rw [List.chain'_append] at hcPM
      obtain ⟨hcP, _, hlinkP⟩ := hcPM
      have hchainL' : List.Chain' (edgeRel es) (p ++ (v :: (s ++ [a]))) := by
        rw [List.chain'_append]
        refine ⟨hcP, hcVS, ?_⟩
        intro x hx y hy
        have hyv : v = y := by simpa using hy
        subst hyv
        exact hlinkP x hx v (by simp)
      have hlenl : l.length = p.length + mm.length + s.length + 2 := by
        have hx := congrArg List.length hful
        simp only [List.length_cons, List.length_append, List.length_nil] at hx
        omega
      cases p with
      | nil =>
        have hva : a = v := by
          simp only [List.nil_append, List.cons_append] at hful
          exact ((List.cons.injEq _ _ _ _).mp hful).1
        subst hva
        have hch2 : List.Chain (edgeRel es) a (s ++ [a]) := by
          simp only [List.nil_append] at hchainL'
          exact hchainL'
        have hne2 : s ++ [a] ≠ [] := by simp
        have hlast2 : (s ++ [a]).getLast hne2 = a := getLast_append_singleton s a hne2
        have hlen2 : (s ++ [a]).length ≤ n := by
          have h1 : (s ++ [a]).length = s.length + 1 := by simp
          have h2 : l.length = mm.length + s.length + 2 := by
            rw [hlenl, List.length_nil]
            omega
          omega
        exact ih (s ++ [a]) a hlen2 hch2 hne2 hlast2
      | cons a0 p' =>
        have heq : a = a0 ∧ l = p' ++ v :: mm ++ v :: (s ++ [a]) := by
          simp only [List.cons_append, List.append_assoc] at hful
          have hinj := (List.cons.injEq _ _ _ _).mp hful
          refine ⟨hinj.1, ?_⟩
          rw [hinj.2]
          simp
        obtain ⟨rfl, _⟩ := heq
        have hch2 : List.Chain (edgeRel es) a (p' ++ v :: (s ++ [a])) := by
          simp only [List.cons_append] at hchainL'
          exact hchainL'
        have hne2 : p' ++ v :: (s ++ [a]) ≠ [] := by simp
        have hlast2 : (p' ++ v :: (s ++ [a])).getLast hne2 = a := by
          have hrw : p' ++ v :: (s ++ [a]) = (p' ++ v :: s) ++ [a] := by simp
          have h3 : ((p' ++ v :: s) ++ [a] : List α) ≠ [] := by simp
          calc (p' ++ v :: (s ++ [a])).getLast hne2
              = ((p' ++ v :: s) ++ [a]).getLast h3 := by
                congr 1
            _ = a := getLast_append_singleton _ a h3
        have hlen2 : (p' ++ v :: (s ++ [a])).length ≤ n := by
          have h1 : (p' ++ v :: (s ++ [a])).length = p'.length + s.length + 2 := by
            simp only [List.length_append, List.length_cons, List.length_nil]
            omega
          have h2 : l.length = p'.length + mm.length + s.length + 3 := by
            rw [hlenl, List.length_cons]
            omega
          omega
        exact ih _ a hlen2 hch2 hne2 hlast2

theorem hasCycleB_iff [DecidableEq α] {es : List (α × α)} :
    hasCycleB es = true ↔ ∃ a, Relation.TransGen (edgeRel es) a a := by
  constructor
  · intro h
    simp only [hasCycleB, List.any_eq_true] at h
    obtain ⟨e, _, hr⟩ := h
    exact ⟨e.1, reachesIn_sound hr⟩
  · rintro ⟨a, hta⟩
    obtain ⟨c, hac, hca⟩ := Relation.TransGen.head'_iff.mp hta
    obtain ⟨l0, hch, hlast⟩ := List.exists_chain_of_relationReflTransGen hca
    have hchain : List.Chain (edgeRel es) a (c :: l0) := List.Chain.cons hac hch
    have hne : (c :: l0) ≠ [] := List.cons_ne_nil _ _
    obtain ⟨l', hne', hch', hlast', hlen⟩ :=
      cycle_shorten (c :: l0).length (c :: l0) a le_rfl hchain hne hlast
    have hr : reachesIn es l'.length a a = true := chain_reachesIn hch' hne' hlast'
    have hr2 : reachesIn es es.length a a = true := reachesIn_mono hlen hr
    cases l' with
    | nil => exact absurd rfl hne'
    | cons d t =>
      have hedge : (a, d) ∈ es := by
        cases hch' with
        | cons h1 _ => exact h1
      simp only [hasCycleB, List.any_eq_true]
      exact ⟨(a, d), hedge, hr2⟩

end DigraphLemmas

/- ### Validation-check lemmas -/

theorem dangling_input_eq_true_iff {m : current.Map} :
    current.dangling_input m = true ↔ ¬ current.InputsOk m := by
  simp only [current.dangling_input, current.InputsOk, List.any_eq_true,
    List.mem_range, decide_eq_true_eq]
  push_neg
  constructor
  · rintro ⟨k, hk, p, hp, hcount⟩
    exact ⟨k, hk, p, hp, hcount⟩
  · rintro ⟨k, hk, p, hp, hcount⟩
    exact ⟨k, hk, p, hp, hcount⟩

theorem dangling_output_eq_true_iff {m : current.Map} :
    current.dangling_output m = true ↔ ¬ current.OutputsOk m := by
  simp only [current.dangling_output, current.OutputsOk, List.any_eq_true,
    List.mem_range, decide_eq_true_eq]
  push_neg
  constructor
  · rintro ⟨k, hk, p, hp, hcount⟩
    exact ⟨k, hk, p, hp, hcount⟩
  · rintro ⟨k, hk, p, hp, hcount⟩
    exact ⟨k, hk, p, hp, hcount⟩

theorem unused_stream_eq_true_iff {m : current.Map} :
    current.unused_stream m = true ↔ ¬ current.StreamsOk m := by
  simp only [current.unused_stream, current.StreamsOk, List.any_eq_true,
    List.mem_range, decide_eq_true_eq]
  push_neg
  constructor
  · rintro ⟨s, hs, hcount⟩
    exact ⟨s, hs, hcount⟩
  · rintro ⟨s, hs, hcount⟩
    exact ⟨s, hs, hcount⟩

theorem cyclic_eq_true_iff {m : current.Map} :
    m.cyclic = true ↔ m.HasCycle := hasCycleB_iff

/- ### Claim theorems -/

/-- Claim C1: the lifecycle Building → Validated → Compiled → Executed is
one-way and each transition is a precondition for the next:
`generate_device_kernels()` refuses to proceed, and `execute()` refuses to
run, on a Map on which `check_connections()` has not yet succeeded; in
particular the demo driver's call order (`generate_device_kernels()`
before `check_connections()`, src/main.cpp:186-187) is rejected by these
guards. -/
theorem lifecycle_guards :
    (∀ (m : current.Map) (nt nc : Nat), m.state = .Building →
      m.generate_device_kernels nt nc = .error .InvalidLifecycleState) ∧
    (∀ m : current.Map, m.state ≠ .Compiled →
      m.execute = .error .InvalidLifecycleState) ∧
    (∀ (m m' : current.Map) (nt nc : Nat),
      m.generate_device_kernels nt nc = .ok m' →
      m.state = .Validated ∧ m'.state = .Compiled) ∧
    (∀ m m' : current.Map, m.execute = .ok m' →
      m.state = .Compiled ∧ m'.state = .Executed) ∧
    (∀ m m' : current.Map, m.check_connections = .ok m' →
      m.state = .Building → m'.state = .Validated) ∧
    demo.demoMap.state = .Building ∧
    (∀ nt nc : Nat, demo.demoMap.generate_device_kernels nt nc =
      .error .InvalidLifecycleState) ∧
    demo.demoMap.execute = .error .InvalidLifecycleState := by
  refine ⟨?_, ?_, ?_, ?_, ?_, rfl, ?_, rfl⟩
  · intro m nt nc h
    simp [current.Map.generate_device_kernels, h]
  · intro m h
    simp [current.Map.execute, h]
  · intro m m' nt nc h
    simp only [current.Map.generate_device_kernels] at h
    split at h
    · cases h
      exact ⟨by assumption, rfl⟩
    · cases h
  · intro m m' h
    simp only [current.Map.execute] at h
    split at h
    · split at h
      · cases h
        exact ⟨by assumption, rfl⟩
      · cases h
    · cases h
  · intro m m' h hb
    simp only [current.Map.check_connections] at h
    split at h
    · cases h
    split at h
    · cases h
    split at h
    · cases h
    split at h
    · cases h
    cases h
    simp [hb]
  · intro nt nc
    rfl

/-- Witness for C1 at the demo graph: the driver's out-of-order
`generate_device_kernels` and `execute` calls are both rejected. -/
theorem lifecycle_guards_witness :
    demo.demoMap.generate_device_kernels demo.n_tiles 1 =
      .error .InvalidLifecycleState ∧
    demo.demoMap.execute = .error .InvalidLifecycleState :=
  ⟨lifecycle_guards.1 demo.demoMap demo.n_tiles 1 rfl,
   lifecycle_guards.2.1 demo.demoMap (by decide)⟩

/-- Claim C2: for the demo graph — a kernel with three input ports bound
to constant source streams holding 1.0, 2.0 and 4.0, a compute body
assigning the output to the third input, and a sink stream on the output —
executing the (validated, compiled) graph leaves every element of the sink
stream's buffer equal to 4.0. -/
theorem multi_input_selection :
    demo.demoMap.check_connections = .ok demo.demoMapValidated ∧
    demo.demoMapValidated.generate_device_kernels demo.n_tiles 1 =
      .ok demo.demoMapCompiled ∧
    demo.demoMapCompiled.execute = .ok demo.demoMapExecuted ∧
    demo.demoMapExecuted.streams.get? 3 =
      some { demo.sink with data := demo.generator2_data } ∧
    ∀ x ∈ demo.generator2_data, x = 4 := by
  refine ⟨rfl, rfl, rfl, rfl, ?_⟩
  intro x hx
  have h4 : demo.generator2_data = List.replicate 2048 (4 : ℚ) := rfl
  rw [h4] at hx
  exact List.eq_of_mem_replicate hx

/-- Counterexample to claim C3 as stated: in `cexMap` every declared input
port has exactly one incoming edge and every declared output port exactly
one outgoing edge (both vacuously), and the edge set is acyclic, yet
`check_connections()` does not succeed — it fails with `UnusedStream`,
because the spec additionally requires every Stream to be connected
exactly once. -/
theorem check_connections_claim_counterexample :
    current.InputsOk cexMap ∧ current.OutputsOk cexMap ∧ ¬ cexMap.HasCycle ∧
    cexMap.check_connections = .error .UnusedStream ∧
    ∀ m', cexMap.check_connections ≠ .ok m' := by
  refine ⟨?_, ?_, ?_, rfl, ?_⟩
  · intro k hk
    simp [cexMap] at hk
  · intro k hk
    simp [cexMap] at hk
  · intro h
    have hc : cexMap.cyclic = true := cyclic_eq_true_iff.mpr h
    rw [show cexMap.cyclic = false from rfl] at hc
    cases hc
  · intro m' h
    rw [show cexMap.check_connections = .error .UnusedStream from rfl] at h
    cases h

/-- Claim C3 (amended): `check_connections()` succeeds iff every declared
input port of every Kernel has exactly one incoming edge, every declared
output port has exactly one outgoing edge, the edge set is acyclic, and —
in addition to the claim as stated — every Stream is connected exactly
once; when it fails it reports the error kind of the first failing check
in the order `DanglingInput`, `DanglingOutput`, `CyclicGraph`,
`UnusedStream`, refusing to proceed past the first detected structural
error. -/
theorem check_connections_characterization (m : current.Map) :
    ((∃ m', m.check_connections = .ok m') ↔
      (current.InputsOk m ∧ current.OutputsOk m ∧ ¬ m.HasCycle ∧
        current.StreamsOk m)) ∧
    (m.check_connections = .error .DanglingInput ↔ ¬ current.InputsOk m) ∧
    (m.check_connections = .error .DanglingOutput ↔
      (current.InputsOk m ∧ ¬ current.OutputsOk m)) ∧
    (m.check_connections = .error .CyclicGraph ↔
      (current.InputsOk m ∧ current.OutputsOk m ∧ m.HasCycle)) ∧
    (m.check_connections = .error .UnusedStream ↔
      (current.InputsOk m ∧ current.OutputsOk m ∧ ¬ m.HasCycle ∧
        ¬ current.StreamsOk m)) := by
  by_cases h1 : current.dangling_input m = true
  · have hI : ¬ current.InputsOk m := dangling_input_eq_true_iff.mp h1
    have hcc : m.check_connections = .error .DanglingInput := by
      simp [current.Map.check_connections, h1]
    rw [hcc]
    simp [hI]
  have hI : current.InputsOk m := by
    by_contra hc
    exact h1 (dangling_input_eq_true_iff.mpr hc)
  by_cases h2 : current.dangling_output m = true
  · have hO : ¬ current.OutputsOk m := dangling_output_eq_true_iff.mp h2
    have hcc : m.check_connections = .error .DanglingOutput := by
      simp [current.Map.check_connections, h1, h2]
    rw [hcc]
    simp [hI, hO]
  have hO : current.OutputsOk m := by
    by_contra hc
    exact h2 (dangling_output_eq_true_iff.mpr hc)
  by_cases h3 : m.cyclic = true
  · have hC : m.HasCycle := cyclic_eq_true_iff.mp h3
    have hcc : m.check_connections = .error .CyclicGraph := by
      simp [current.Map.check_connections, h1, h2, h3]
    rw [hcc]
    simp [hI, hO, hC]
  have hC : ¬ m.HasCycle := by
    intro hc
    exact h3 (cyclic_eq_true_iff.mpr hc)
  by_cases h4 : current.unused_stream m = true
  · have hS : ¬ current.StreamsOk m := unused_stream_eq_true_iff.mp h4
    have hcc : m.check_connections = .error .UnusedStream := by
      simp [current.Map.check_connections, h1, h2, h3, h4]
    rw [hcc]
    simp [hI, hO, hC, hS]
  have hS : current.StreamsOk m := by
    by_contra hc
    exact h4 (unused_stream_eq_true_iff.mpr hc)
  have hcc : m.check_connections =
      .ok { m with state := if m.state = .Building then .Validated else m.state } := by
    simp [current.Map.check_connections, h1, h2, h3, h4]
  rw [hcc]
  simp [hI, hO, hC, hS]

/-- Witness for the amended C3 at the demo graph: from the computed
success of `check_connections` the characterization yields all four
structural conditions. -/
theorem check_connections_characterization_witness :
    current.InputsOk demo.demoMap ∧ current.OutputsOk demo.demoMap ∧
      ¬ demo.demoMap.HasCycle ∧ current.StreamsOk demo.demoMap :=
  (check_connections_characterization demo.demoMap).1.mp
    ⟨demo.demoMapValidated, rfl⟩

/-- Claim C4: `add_connection` fails with `UnknownPort` when the port name
does not name a port of the target Kernel, and with `FormatMismatch`
whenever the two endpoint formats differ, in both edge directions
(stream-to-kernel and kernel-to-stream). -/
theorem add_connection_error_reporting :
    (∀ (m : current.Map) (s k : Nat) (pn : String) (kern : current.Kernel),
      m.kernels[k]? = some kern →
      (∀ p ∈ kern.input_ports, p.name ≠ pn) →
      m.add_connection_in s k pn = .error .UnknownPort) ∧
    (∀ (m : current.Map) (s k : Nat) (pn : String) (kern : current.Kernel),
      m.kernels[k]? = some kern →
      (∀ p ∈ kern.output_ports, p.name ≠ pn) →
      m.add_connection_out k pn s = .error .UnknownPort) ∧
    (∀ (m : current.Map) (s k : Nat) (pn : String) (kern : current.Kernel)
      (p : current.Port) (st : current.Stream),
      m.kernels[k]? = some kern →
      kern.input_ports.find? (fun q => q.name == pn) = some p →
      m.streams[s]? = some st → st.format ≠ p.format →
      m.add_connection_in s k pn = .error .FormatMismatch) ∧
    (∀ (m : current.Map) (s k : Nat) (pn : String) (kern : current.Kernel)
      (p : current.Port) (st : current.Stream),
      m.kernels[k]? = some kern →
      kern.output_ports.find? (fun q => q.name == pn) = some p →
      m.streams[s]? = some st → st.format ≠ p.format →
      m.add_connection_out k pn s = .error .FormatMismatch) := by
  refine ⟨?_, ?_, ?_, ?_⟩
  · intro m s k pn kern hk hno
    have hfind : kern.input_ports.find? (fun p => p.name == pn) = none := by
      rw [List.find?_eq_none]
      intro p hp
      simpa using hno p hp
    simp [current.Map.add_connection_in, hk, hfind]
  · intro m s k pn kern hk hno
    have hfind : kern.output_ports.find? (fun p => p.name == pn) = none := by
      rw [List.find?_eq_none]
      intro p hp
      simpa using hno p hp
    simp [current.Map.add_connection_out, hk, hfind]
  · intro m s k pn kern p st hk hfind hst hfmt
    simp [current.Map.add_connection_in, hk, hfind, hst, hfmt]
  · intro m s k pn kern p st hk hfind hst hfmt
    simp [current.Map.add_connection_out, hk, hfind, hst, hfmt]

/-- Witness for C4 on the fixture graph: an unknown port name is rejected
with `UnknownPort` in both directions, and a Float32 stream against a
Float16_b port is rejected with `FormatMismatch` in both directions. -/
theorem add_connection_error_reporting_witness :
    wMap.add_connection_in 0 0 "bogus" = .error .UnknownPort ∧
    wMap.add_connection_out 0 "bogus" 0 = .error .UnknownPort ∧
    wMap.add_connection_in 0 0 "in0" = .error .FormatMismatch ∧
    wMap.add_connection_out 0 "out0" 0 = .error .FormatMismatch :=
  ⟨add_connection_error_reporting.1 wMap 0 0 "bogus" wKernel rfl (by decide),
   add_connection_error_reporting.2.1 wMap 0 0 "bogus" wKernel rfl (by decide),
   add_connection_error_reporting.2.2.1 wMap 0 0 "in0" wKernel
     ⟨"in0", .Float16_b⟩ wStreamF32 rfl rfl rfl (by decide),
   add_connection_error_reporting.2.2.2 wMap 0 0 "out0" wKernel
     ⟨"out0", .Float16_b⟩ wStreamF32 rfl rfl rfl (by decide)⟩

/-- Claim C5: `check_connections()` is idempotent — after a successful
call, calling it again returns the same successful result — and it does
not mutate graph state other than recording the validated flag: kernels,
streams, connections and the core assignment are untouched (on failure no
modified map is produced at all). -/
theorem check_connections_idempotent (m m' : current.Map)
    (h : m.check_connections = .ok m') :
    m'.check_connections = .ok m' ∧ m'.kernels = m.kernels ∧
      m'.streams = m.streams ∧ m'.connections = m.connections ∧
      m'.core_assignment = m.core_assignment := by
  by_cases h1 : current.dangling_input m = true
  · simp [current.Map.check_connections, h1] at h
  by_cases h2 : current.dangling_output m = true
  · simp [current.Map.check_connections, h1, h2] at h
  by_cases h3 : m.cyclic = true
  · simp [current.Map.check_connections, h1, h2, h3] at h
  by_cases h4 : current.unused_stream m = true
  · simp [current.Map.check_connections, h1, h2, h3, h4] at h
  have hm' : m' = { m with state := if m.state = .Building then .Validated else m.state } := by
    simp [current.Map.check_connections, h1, h2, h3, h4] at h
    exact h.symm
  subst hm'
  refine ⟨?_, rfl, rfl, rfl, rfl⟩
  have e1 : current.dangling_input
      { m with state := if m.state = .Building then .Validated else m.state } =
      current.dangling_input m := rfl
  have e2 : current.dangling_output
      { m with state := if m.state = .Building then .Validated else m.state } =
      current.dangling_output m := rfl
  have e3 : current.Map.cyclic
      { m with state := if m.state = .Building then .Validated else m.state } =
      m.cyclic := rfl
  have e4 : current.unused_stream
      { m with state := if m.state = .Building then .Validated else m.state } =
      current.unused_stream m := rfl
  simp only [current.Map.check_connections, e1, e2, e3, e4, h1, h2, h3, h4,
    Bool.false_eq_true, if_false]
  by_cases hb : m.state = current.LifecycleState.Building
  · simp [hb]
  · simp [hb]

/-- Witness for C5: revalidating the already-validated demo graph returns
the same result and leaves every component unchanged. -/
theorem check_connections_idempotent_witness :
    demo.demoMapValidated.check_connections = .ok demo.demoMapValidated ∧
      demo.demoMapValidated.kernels = demo.demoMap.kernels ∧
      demo.demoMapValidated.streams = demo.demoMap.streams ∧
      demo.demoMapValidated.connections = demo.demoMap.connections ∧
      demo.demoMapValidated.core_assignment = demo.demoMap.core_assignment :=
  check_connections_idempotent demo.demoMap demo.demoMapValidated rfl

theorem set_replicate_last :
    ∀ (n : Nat) (q v : Nat), (List.replicate (n + 1) q).set n v = List.replicate n q ++ [v] := by
  intro n
  induction n with
  | zero => intro q v; rfl
  | succ n ih =>
    intro q v
    calc (List.replicate (n + 2) q).set (n + 1) v
        = (q :: List.replicate (n + 1) q).set (n + 1) v := by rw [List.replicate_succ]
      _ = q :: (List.replicate (n + 1) q).set n v := List.set_cons_succ q _ n v
      _ = q :: (List.replicate n q ++ [v]) := by rw [ih]
      _ = List.replicate (n + 1) q ++ [v] := by rw [List.replicate_succ, List.cons_append]

theorem tiles_per_core_vec_eq (n_tiles num_cores : Nat) (h : 1 ≤ num_cores) :
    current.tiles_per_core_vec n_tiles num_cores =
      List.replicate (num_cores - 1) (n_tiles / num_cores) ++
        [n_tiles / num_cores + n_tiles % num_cores] := by
  obtain ⟨c', rfl⟩ : ∃ c', num_cores = c' + 1 := ⟨num_cores - 1, by omega⟩
  simp only [current.tiles_per_core_vec, Nat.add_sub_cancel]
  by_cases hr : n_tiles % (c' + 1) = 0
  · rw [if_neg (by simpa using hr), hr, List.replicate_succ']
    simp
  · rw [if_pos (by simpa using hr), set_replicate_last]

/-- Claim C6: for every tile count and core count `num_cores ≥ 1`, the
compiler's partition has one entry per core, assigns
`n_tiles / num_cores` tiles to every core but the last, assigns the last
core additionally the remainder `n_tiles % num_cores`, sums to `n_tiles`,
and is deterministic: partitioning the same counts twice yields the same
assignment. -/
theorem tiles_per_core_partition (n_tiles num_cores : Nat) (h : 1 ≤ num_cores) :
    (current.tiles_per_core_vec n_tiles num_cores).length = num_cores ∧
    (∀ i, i + 1 < num_cores →
      (current.tiles_per_core_vec n_tiles num_cores).get? i =
        some (n_tiles / num_cores)) ∧
    (current.tiles_per_core_vec n_tiles num_cores).get? (num_cores - 1) =
      some (n_tiles / num_cores + n_tiles % num_cores) ∧
    (current.tiles_per_core_vec n_tiles num_cores).sum = n_tiles ∧
    current.tiles_per_core_vec n_tiles num_cores =
      current.tiles_per_core_vec n_tiles num_cores := by
  rw [tiles_per_core_vec_eq n_tiles num_cores h]
  refine ⟨?_, ?_, ?_, ?_, rfl⟩
  · simp
    omega
  · intro i hi
    have hilt : i < (List.replicate (num_cores - 1) (n_tiles / num_cores)).length := by
      simp
      omega
    rw [List.get?_append hilt, List.get?_eq_getElem?, List.getElem?_replicate,
      if_pos (by simpa using hilt)]
  · rw [List.get?_append_right (by simp)]
    simp
  · rw [List.sum_append, List.sum_replicate, smul_eq_mul, List.sum_singleton]
    obtain ⟨c', rfl⟩ : ∃ c', num_cores = c' + 1 := ⟨num_cores - 1, by omega⟩
    have hdm := Nat.div_add_mod n_tiles (c' + 1)
    simp only [Nat.add_sub_cancel]
    conv_rhs => rw [← hdm]
    ring

/-- Witness for C6 at seven tiles over four cores: the partition is
`[1, 1, 1, 4]`. -/
theorem tiles_per_core_partition_witness :
    (current.tiles_per_core_vec 7 4).length = 4 ∧
    (∀ i, i + 1 < 4 → (current.tiles_per_core_vec 7 4).get? i = some (7 / 4)) ∧
    (current.tiles_per_core_vec 7 4).get? (4 - 1) = some (7 / 4 + 7 % 4) ∧
    (current.tiles_per_core_vec 7 4).sum = 7 ∧
    current.tiles_per_core_vec 7 4 = current.tiles_per_core_vec 7 4 :=
  tiles_per_core_partition 7 4 (by decide)

/-- Claim C7: `export_dot` is callable on a Map in any lifecycle state, it
serializes the current node and edge set (the serialization reads nothing
but the nodes and edges), it returns the Map unchanged, and it fails only
when the destination is unwritable. -/
theorem export_dot_frame (m : current.Map) :
    m.export_dot true = .ok (current.render_dot m, m) ∧
    m.export_dot false = .error .UnwritableDestination ∧
    (∀ m₂ : current.Map, m₂.kernels = m.kernels → m₂.streams = m.streams →
      m₂.connections = m.connections →
      current.render_dot m₂ = current.render_dot m) := by
  refine ⟨rfl, rfl, ?_⟩
  intro m₂ hk hs hc
  simp only [current.render_dot, hk, hs, hc]

/-- Witness for C7 at the demo graph, also exercising a second lifecycle
state: the still-building and the validated demo map serialize alike. -/
theorem export_dot_frame_witness :
    demo.demoMap.export_dot true = .ok (current.render_dot demo.demoMap, demo.demoMap) ∧
    current.render_dot demo.demoMapValidated = current.render_dot demo.demoMap :=
  ⟨(export_dot_frame demo.demoMap).1,
   (export_dot_frame demo.demoMap).2.2 demo.demoMapValidated rfl rfl rfl⟩

/-- Claim C8: the stream data of the demo is independent of the seed: the
seeded generator is constructed but never consulted, so any two seeds
produce identical buffers — the constant vectors of 1.0, 2.0, 4.0 for the
sources and 0.0 for the sink. -/
theorem stream_data_seed_independent :
    (∀ s1 s2 : Nat, demo.demoStreamData s1 = demo.demoStreamData s2) ∧
    demo.demoStreamData 0 =
      { generator0_data := List.replicate 2048 1
        generator1_data := List.replicate 2048 2
        generator2_data := List.replicate 2048 4
        output_data := List.replicate 2048 0 } :=
  ⟨fun _ _ => rfl, rfl⟩

/-- Witness for C8 at two concrete seeds. -/
theorem stream_data_seed_independent_witness :
    demo.demoStreamData 0 = demo.demoStreamData 12345 :=
  stream_data_seed_independent.1 0 12345

/-- Claim C9: the tile count is computed by integer division —
`std::ceil` is applied after the unsigned quotient is formed, so
`n_tiles = count / ts` truncated toward zero; when `count` is a multiple
of the tile size the tiles cover it exactly, and otherwise the trailing
`count % ts` elements are not covered by any tile. -/
theorem n_tiles_integer_division (count ts : Nat) (h : 0 < ts) :
    n_tiles_calc count ts = count / ts ∧
    (count % ts = 0 → n_tiles_calc count ts * ts = count) ∧
    (count % ts ≠ 0 →
      n_tiles_calc count ts * ts < count ∧
      count - n_tiles_calc count ts * ts = count % ts) := by
  have hceil : n_tiles_calc count ts = count / ts := by
    simp [n_tiles_calc]
  refine ⟨hceil, ?_, ?_⟩
  · intro h0
    rw [hceil]
    exact Nat.div_mul_cancel (Nat.dvd_of_mod_eq_zero h0)
  · intro hne
    rw [hceil]
    have hle : count / ts * ts ≤ count := Nat.div_mul_le_self count ts
    have hdm' : count / ts * ts + count % ts = count := by
      rw [Nat.mul_comm]
      exact Nat.div_add_mod count ts
    constructor
    · refine Nat.lt_of_le_of_ne hle (fun heq => hne ?_)
      omega
    · omega

/-- Witness for C9 at `count = 1500`, tile size 1024: one tile, covering
1024 of the 1500 elements and leaving `1500 % 1024` uncovered. -/
theorem n_tiles_integer_division_witness :
    n_tiles_calc 1500 1024 = 1500 / 1024 ∧
    (1500 % 1024 = 0 → n_tiles_calc 1500 1024 * 1024 = 1500) ∧
    (1500 % 1024 ≠ 0 →
      n_tiles_calc 1500 1024 * 1024 < 1500 ∧
      1500 - n_tiles_calc 1500 1024 * 1024 = 1500 % 1024) :=
  n_tiles_integer_division 1500 1024 (by decide)

/-- Claim C10: argument parsing is total over its error branch — whenever
`--device`/`-d` or `--seed`/`-s` is the final argument with no value
following it, `next_arg` detects `i + 1 ≥ argc` and the parse terminates
with exit status 1 instead of reading past the end of `argv`. -/
theorem next_arg_bounds :
    (∀ (i argc : Nat) (argv : List String), i + 1 ≥ argc →
      next_arg i argc argv = none) ∧
    (∀ (argv : List String) (i : Nat) (a : String) (d s : Int),
      argv.length = i + 1 → argv.get? i = some a →
      (a = "--device" ∨ a = "-d" ∨ a = "--seed" ∨ a = "-s") →
      parse_args_loop argv i d s = .exited 1) := by
  constructor
  · intro i argc argv h
    simp [next_arg, h]
  · intro argv i a d s hlen hget ha
    have hi : i < argv.length := by omega
    have hnone : next_arg i argv.length argv = none := by
      simp only [next_arg, ge_iff_le, if_pos (by omega : argv.length ≤ i + 1)]
    have hgv : argv.get ⟨i, hi⟩ = a := by
      have := List.get?_eq_get hi
      rw [this] at hget
      exact (Option.some.injEq _ _).mp hget
    rw [parse_args_loop]
    rw [dif_pos hi, hgv]
    rcases ha with rfl | rfl | rfl | rfl
    · rw [if_pos (Or.inl rfl), hnone]
    · rw [if_pos (Or.inr rfl), hnone]
    · rw [if_neg (by simp), if_pos (Or.inl rfl), hnone]
    · rw [if_neg (by simp), if_pos (Or.inr rfl), hnone]

/-- Witness for C10: `./prog --device` with no following value makes the
parse exit with status 1. -/
theorem next_arg_bounds_witness :
    next_arg 1 2 ["prog", "--device"] = none ∧
    parse_args_loop ["prog", "--device"] 1 0 5 = .exited 1 :=
  ⟨next_arg_bounds.1 1 2 ["prog", "--device"] (by omega),
   next_arg_bounds.2 ["prog", "--device"] 1 "--device" 0 5 rfl rfl (Or.inl rfl)⟩
